import Mathlib

/- Shallow embedding of the trial-balance dashboard implemented in src/app.py.
   Spreadsheet cells are modelled as blank (NaN), string, or rational values;
   a pandas DataFrame is modelled as a list of column labels plus a list of
   rows.  Monetary amounts are rationals. -/

inductive Cell where
  | blank : Cell
  | str : String → Cell
  | num : ℚ → Cell
deriving DecidableEq

/- Python str(x) applied to a cell value; NaN prints as the string nan. -/
def cellStr : Cell → String
  | Cell.blank => "nan"
  | Cell.str s => s
  | Cell.num q => toString q

/- Boolean list-prefix test, used for both substring search and the
   Python str.startswith tests. -/
def hasPrefixL : List Char → List Char → Bool
  | [], _ => true
  | _ :: _, [] => false
  | p :: ps, c :: cs => p == c && hasPrefixL ps cs

/- Substring containment on character lists. -/
def containsSub (pat : List Char) : List Char → Bool
  | [] => hasPrefixL pat []
  | c :: cs => hasPrefixL pat (c :: cs) || containsSub pat cs

/- Python s.lower(), character by character. -/
def toLowerStr (s : String) : String := String.mk (s.toList.map Char.toLower)

/- Python: tok in s.lower(), with tok already lowercase. -/
def containsTok (s tok : String) : Bool := containsSub tok.toList (toLowerStr s).toList

def cellContains (c : Cell) (tok : String) : Bool := containsTok (cellStr c) tok

/- Python s.startswith(p). -/
def startsW (s p : String) : Bool := hasPrefixL p.toList s.toList

/- Python s.startswith((p1, p2, ...)). -/
def startsWAny (s : String) (ps : List String) : Bool := ps.any (fun p => startsW s p)

/- A pandas DataFrame: column labels (raw header-row cells, possibly renamed
   to canonical string labels) together with the data rows. -/
structure Table where
  labels : List Cell
  rows : List (List Cell)
deriving DecidableEq

/- pandas df.empty: true when the frame has no columns or no rows. -/
def tableEmpty (t : Table) : Bool := t.labels.isEmpty || t.rows.isEmpty

/- The header test of extract_trial_balance, line 49 of src/app.py:
   some cell contains the token account and some cell the token description,
   case-insensitively, after str coercion. -/
def rowQualifies (r : List Cell) : Bool :=
  r.any (fun c => cellContains c "account") && r.any (fun c => cellContains c "description")

/- A row survives dropna with how set to all when some cell is not blank. -/
def rowNonblank (r : List Cell) : Bool := r.any (fun c => !(c == Cell.blank))

/- Lines 46-55 of src/app.py: scan for the first header row, promote it to
   column labels, keep the following rows, drop entirely blank rows.  When no
   row qualifies, an empty frame is returned. -/
def extract_trial_balance : List (List Cell) → Table
  | [] => { labels := [], rows := [] }
  | r :: rest =>
    if rowQualifies r then
      { labels := r, rows := rest.filter rowNonblank }
    else extract_trial_balance rest

/- ──────────────── Column normalization, lines 57-99 of src/app.py ──────────────── -/

/- The col_map rules of lines 67-82, in their exact priority order. -/
def renameLabel (c : Cell) : Cell :=
  if containsTok (cellStr c) "account" && !(containsTok (cellStr c) "description") then
    Cell.str "Account"
  else if containsTok (cellStr c) "description" then Cell.str "Description"
  else if containsTok (cellStr c) "beginning" then Cell.str "Beginning_Balance"
  else if containsTok (cellStr c) "ending" then Cell.str "Ending_Balance"
  else if containsTok (cellStr c) "debit" then Cell.str "Debits"
  else if containsTok (cellStr c) "credit" then Cell.str "Credits"
  else c

def numericLabels : List Cell :=
  [Cell.str "Beginning_Balance", Cell.str "Ending_Balance", Cell.str "Debits", Cell.str "Credits"]

def isNumLabel (c : Cell) : Bool := numericLabels.any (fun l => l == c)

def digitsToNat (l : List Char) : Nat := l.foldl (fun a c => a * 10 + (c.toNat - 48)) 0

/- The numeral strings accepted by pd.to_numeric: optional sign, a digit run,
   optionally a decimal point with a digit run. -/
def parseRat (s : String) : Option ℚ :=
  let l := s.toList
  let signed : Bool × List Char :=
    match l with
    | '-' :: t => (true, t)
    | '+' :: t => (false, t)
    | _ => (false, l)
  let ds := signed.2.takeWhile Char.isDigit
  let rest := signed.2.dropWhile Char.isDigit
  if ds.isEmpty then none
  else
    let intPart : ℚ := (digitsToNat ds : ℚ)
    let value : Option ℚ :=
      match rest with
      | [] => some intPart
      | '.' :: fs =>
        if fs.all Char.isDigit then
          some (intPart + (digitsToNat fs : ℚ) / ((10 : ℚ) ^ fs.length))
        else none
      | _ => none
    match value with
    | none => none
    | some v => some (if signed.1 then -v else v)

/- pd.to_numeric with errors set to coerce: numbers pass through, numeral
   strings parse, everything else (including blanks) becomes NaN, i.e. none. -/
def toNumeric : Cell → Option ℚ
  | Cell.num q => some q
  | Cell.blank => none
  | Cell.str s => parseRat s

/- The fillna step of line 93: a NaN produced by the coercion becomes 0. -/
def coerceCell (c : Cell) : Cell := Cell.num ((toNumeric c).getD 0)

/- Apply the numeric coercion of lines 91-93 positionally: a cell is coerced
   exactly when its column label is one of the four numeric labels. -/
def coerceFrom : List Cell → List Cell → List Cell
  | _, [] => []
  | [], c :: cs => c :: coerceFrom [] cs
  | l :: ls, c :: cs => (if isNumLabel l then coerceCell c else c) :: coerceFrom ls cs

/- Python re.match applied with the anchored digit pattern of line 89: the
   dollar anchor also matches just before one newline at the very end of the
   string, so a digit run with one trailing newline is accepted too. -/
def matchAcct (s : String) : Bool :=
  let l := s.toList
  let core := if l.getLast? == some '\n' then l.dropLast else l
  !core.isEmpty && core.all Char.isDigit

/- Line 88: the Account column is coerced to str. -/
def astypeStrAt (aIdx : Nat) (r : List Cell) : List Cell :=
  r.set aIdx (Cell.str (cellStr (r.getD aIdx Cell.blank)))

/- Lines 57-99 of src/app.py, after the Excel read: extract the table, fail on
   an empty result, rename columns, fail when no Account column exists, cast
   Account to string, keep only rows whose Account matches the digit pattern,
   and coerce the four numeric columns.  Failures return none (the Python code
   shows a warning and returns None). -/
def load_trial_balance_from_sheet (grid : List (List Cell)) : Option Table :=
  let df := extract_trial_balance grid
  if tableEmpty df then none
  else
    let labels := df.labels.map renameLabel
    if labels.any (fun c => c == Cell.str "Account") then
      let aIdx := labels.findIdx (fun c => c == Cell.str "Account")
      let rows1 := df.rows.map (astypeStrAt aIdx)
      let rows2 := rows1.filter (fun r => matchAcct (cellStr (r.getD aIdx Cell.blank)))
      let rows3 := rows2.map (fun r => coerceFrom labels r)
      some { labels := labels, rows := rows3 }
    else none

/- ──────────────── Classification, lines 102-117 of src/app.py ──────────────── -/

/- A row of the classified frame: the canonical columns produced by the
   normalizer together with the two classification columns. -/
structure CRow where
  Account : String
  Description : Cell
  Beginning_Balance : ℚ
  Ending_Balance : ℚ
  Debits : ℚ
  Credits : ℚ
  Category : String
  Sub_Category : String
deriving DecidableEq

/- Lines 103, 106-108: Category starts empty and the three prefix masks are
   applied in order, each overwriting the previous value where it matches. -/
def categoryOf (a : String) : String :=
  let c0 := ""
  let c1 := if startsW a "1" then "Assets" else c0
  let c2 := if startsW a "2" then "Liabilities" else c1
  if startsW a "3" then "Equity" else c2

/- Lines 104, 109-116: Sub_Category starts empty, the prefix masks are applied
   in order, and line 116 finally overwrites the value of every Equity row. -/
def subCategoryOf (a cat : String) : String :=
  let s0 := ""
  let s1 := if startsWAny a ["10", "11", "12", "13"] then "Cash & Equivalents" else s0
  let s2 := if startsWAny a ["14", "15"] then "Receivables" else s1
  let s3 := if startsWAny a ["16"] then "Inventory" else s2
  let s4 := if startsWAny a ["17"] then "Fixed Assets" else s3
  let s5 := if startsWAny a ["18", "19"] then "Other Assets" else s4
  let s6 := if startsWAny a ["20", "21"] then "Current Liabilities" else s5
  let s7 := if startsWAny a ["22", "23", "24"] then "Long-term Liabilities" else s6
  if cat == "Equity" then "Stockholders Equity" else s7

/- Every mask of classify_accounts is row-local, so the column updates of
   lines 102-117 act independently on each row. -/
def classifyRow (r : CRow) : CRow :=
  let cat := categoryOf r.Account
  { r with Category := cat, Sub_Category := subCategoryOf r.Account cat }

def classify_accounts (df : List CRow) : List CRow := df.map classifyRow

/- A trial-balance row with the given account string and ending balance and
   all other fields at their defaults, used for concrete instances. -/
def mkRow (a : String) (eb : ℚ) : CRow :=
  { Account := a, Description := Cell.blank, Beginning_Balance := 0,
    Ending_Balance := eb, Debits := 0, Credits := 0, Category := "", Sub_Category := "" }

/- ──────────────── Aggregation, lines 145-195 of src/app.py ──────────────── -/

/- The distinct keys of a key list, first occurrence first; the first argument
   accumulates the keys already emitted. -/
def dedupAux : List String → List String → List String
  | _, [] => []
  | seen, k :: rest =>
    if seen.any (fun x => x == k) then dedupAux seen rest
    else k :: dedupAux (k :: seen) rest

def dedupKeys (l : List String) : List String := dedupAux [] l

/- pandas groupby on a key followed by a sum over Ending_Balance: one output
   pair per distinct key, carrying the sum of the matching rows. -/
def groupbySum (rs : List CRow) (key : CRow → String) : List (String × ℚ) :=
  (dedupKeys (rs.map key)).map
    (fun k => (k, ((rs.filter (fun r => key r == k)).map (fun r => r.Ending_Balance)).sum))

/- The loc plus sum selection of lines 187-190: total of the second components
   of the pairs whose key equals the requested one. -/
def sumFor (l : List (String × ℚ)) (t : String) : ℚ :=
  ((l.filter (fun p => p.1 == t)).map (fun p => p.2)).sum

/- Line 162: the Liabilities chart data of display_balance_sheet. -/
def liabBreakdown (df : List CRow) : List (String × ℚ) :=
  groupbySum (df.filter (fun r => r.Category == "Liabilities")) (fun r => r.Sub_Category)

/- Line 163: the Equity chart data of display_balance_sheet. -/
def eqBreakdown (df : List CRow) : List (String × ℚ) :=
  groupbySum (df.filter (fun r => r.Category == "Equity")) (fun r => r.Sub_Category)

/- The signed per-sub-category sum that the tabular view reflects. -/
def subSum (df : List CRow) (cat k : String) : ℚ :=
  ((df.filter (fun r => r.Category == cat && r.Sub_Category == k)).map
    (fun r => r.Ending_Balance)).sum

/- Line 172: rows of the income statement view. -/
def incomeRows (df : List CRow) : List CRow :=
  df.filter (fun r => startsWAny r.Account ["4", "5", "6", "7"])

/- Lines 174-178: the inner classify function of display_income_statement. -/
def typeOf (x : String) : String :=
  if startsW x "4" then "Revenue"
  else if startsW x "5" then "COGS"
  else if startsW x "6" then "Operating Expense"
  else "Other"

/- Line 183: the per-type summary frame. -/
def incomeSummary (df : List CRow) : List (String × ℚ) :=
  groupbySum (incomeRows df) (fun r => typeOf r.Account)

def revenueOf (df : List CRow) : ℚ := sumFor (incomeSummary df) "Revenue"

def cogsOf (df : List CRow) : ℚ := sumFor (incomeSummary df) "COGS"

def opexOf (df : List CRow) : ℚ := sumFor (incomeSummary df) "Operating Expense"

def otherOf (df : List CRow) : ℚ := sumFor (incomeSummary df) "Other"

/- Lines 191-192. -/
def ebitdaOf (df : List CRow) : ℚ := revenueOf df - cogsOf df - opexOf df

def netIncomeOf (df : List CRow) : ℚ := ebitdaOf df - otherOf df

/- Direct specification-style sum over the income rows of a given type. -/
def typeSum (df : List CRow) (t : String) : ℚ :=
  (((incomeRows df).filter (fun r => typeOf r.Account == t)).map
    (fun r => r.Ending_Balance)).sum

/- ──────────────── Company map, lines 17-36 of src/app.py ──────────────── -/

/- Line 19: the row values, str-coerced, with the cells printing as nan
   removed. -/
def stripCellVals (row : List Cell) : List String :=
  (row.map cellStr).filter (fun s => !(s == "nan"))

/- Python s.strip(): drop leading and trailing whitespace. -/
def pyStrip (s : String) : String :=
  String.mk (((s.toList.dropWhile Char.isWhitespace).reverse.dropWhile Char.isWhitespace).reverse)

/- Lines 20-22: scan a row for a cell containing the company token that still
   has a successor, and return the stripped successor. -/
def rowName : List String → Option String
  | v :: w :: rest => if containsTok v "company" then some (pyStrip w) else rowName (w :: rest)
  | _ => none

/- Lines 17-23 of src/app.py. -/
def extract_company_name : List (List Cell) → Option String
  | [] => none
  | row :: rest =>
    match rowName (stripCellVals row) with
    | some n => some n
    | none => extract_company_name rest

/- Python dict assignment: replace in place when the key exists, else append. -/
def dictInsert (m : List (String × String)) (k v : String) : List (String × String) :=
  if m.any (fun p => p.1 == k) then m.map (fun p => if p.1 == k then (k, v) else p)
  else m ++ [(k, v)]

/- Lines 29-36: one loop iteration of the sheet scan; only the first 20 rows
   of the sheet are parsed (nrows set to 20 on line 29). -/
def sheetEntry (m : List (String × String)) (name : String) (grid : List (List Cell)) :
    List (String × String) :=
  match extract_company_name (grid.take 20) with
  | some n => dictInsert m n name
  | none => dictInsert m name name

/- Lines 25-36: the company to sheet mapping built over the whole workbook. -/
def company_sheet_map (wb : List (String × List (List Cell))) : List (String × String) :=
  wb.foldl (fun m sg => sheetEntry m sg.1 sg.2) []

/- ──────────────── FinBot error handling, lines 120-142 of src/app.py ──────────────── -/

/- Outcome of the HTTP call of line 135: either a response with a status code
   and (for successful responses) the completion text extracted from the JSON
   body, or a transport exception with its message. -/
inductive HttpResult where
  | response (status : Nat) (body : String)
  | exc (msg : String)
deriving DecidableEq

/- What the user interface ends up showing.  The crashed alternative stands
   for an exception escaping the handler and killing the rendering pass; the
   try block of lines 134-142 catches every exception, so it is never
   produced. -/
inductive Display where
  | success (text : String)
  | errorMsg (text : String)
  | crashed
deriving DecidableEq

/- Lines 136-142: status 200 shows the completion text, any other status
   shows the interpolated OpenAI error message, an exception shows str(e). -/
def ask_ai_outcome : HttpResult → Display
  | HttpResult.response 200 body => Display.success body
  | HttpResult.response code _ => Display.errorMsg ("OpenAI error " ++ toString code)
  | HttpResult.exc e => Display.errorMsg e

/- ──────────────── Auxiliary lemmas ──────────────── -/

lemma getD_set_self (r : List Cell) (i : Nat) (v d : Cell) (h : i < r.length) :
    (r.set i v).getD i d = v := by
  induction r generalizing i with
  | nil => simp at h
  | cons a t ih =>
    cases i with
    | zero => simp [List.set]
    | succ n =>
      simp only [List.set, List.getD_cons_succ]
      exact ih n (by simpa using h)

lemma getD_set_other (r : List Cell) (i j : Nat) (v d : Cell) (h : i ≠ j) :
    (r.set i v).getD j d = r.getD j d := by
  induction r generalizing i j with
  | nil => simp [List.set]
  | cons a t ih =>
    cases i with
    | zero =>
      cases j with
      | zero => exact absurd rfl h
      | succ m => simp [List.set]
    | succ n =>
      cases j with
      | zero => simp [List.set]
      | succ m =>
        simp only [List.set, List.getD_cons_succ]
        exact ih n m (by omega)

lemma set_oob (r : List Cell) (i : Nat) (v : Cell) (h : r.length ≤ i) : r.set i v = r := by
  induction r generalizing i with
  | nil => simp
  | cons a t ih =>
    cases i with
    | zero => simp at h
    | succ n => simp [List.set, ih n (by simpa using h)]

lemma length_coerceFrom (ls r : List Cell) : (coerceFrom ls r).length = r.length := by
  induction r generalizing ls with
  | nil => cases ls <;> simp [coerceFrom]
  | cons c cs ih =>
    cases ls with
    | nil => simpa [coerceFrom] using ih []
    | cons l ls2 => simpa [coerceFrom] using ih ls2

lemma isNumLabel_blank : isNumLabel Cell.blank = false := by decide

lemma coerceFrom_getD (ls r : List Cell) (i : Nat) (hi : i < r.length) :
    (coerceFrom ls r).getD i Cell.blank =
      (if isNumLabel (ls.getD i Cell.blank) then coerceCell (r.getD i Cell.blank)
       else r.getD i Cell.blank) := by
  induction r generalizing ls i with
  | nil => simp at hi
  | cons c cs ih =>
    cases ls with
    | nil =>
      cases i with
      | zero => simp [coerceFrom, isNumLabel_blank]
      | succ n =>
        simp only [coerceFrom, List.getD_cons_succ, List.getD_nil]
        have := ih [] n (by simpa using hi)
        simpa [isNumLabel_blank] using this
    | cons l ls2 =>
      cases i with
      | zero => simp [coerceFrom]
      | succ n =>
        simp only [coerceFrom, List.getD_cons_succ]
        exact ih ls2 n (by simpa using hi)

lemma findIdx_getD (p : Cell → Bool) (l : List Cell) (d : Cell) (h : l.any p = true) :
    p (l.getD (l.findIdx p) d) = true := by
  induction l with
  | nil => simp at h
  | cons a t ih =>
    by_cases hp : p a = true
    · simp [List.findIdx_cons, hp]
    · have hp2 : p a = false := by simpa using hp
      have ht : t.any p = true := by simpa [hp2] using h
      simp only [List.findIdx_cons, hp2, cond_false, List.getD_cons_succ]
      exact ih ht

lemma findIdx_lt_length (p : Cell → Bool) (l : List Cell) (h : l.any p = true) :
    l.findIdx p < l.length := by
  induction l with
  | nil => simp at h
  | cons a t ih =>
    by_cases hp : p a = true
    · simp [List.findIdx_cons, hp]
    · have hp2 : p a = false := by simpa using hp
      have ht : t.any p = true := by simpa [hp2] using h
      simp only [List.findIdx_cons, hp2, cond_false, List.length_cons]
      exact Nat.succ_lt_succ (ih ht)

lemma renameLabel_blank : renameLabel Cell.blank = Cell.blank := by decide

lemma getD_map_renameLabel (l : List Cell) (j : Nat) :
    (l.map renameLabel).getD j Cell.blank = renameLabel (l.getD j Cell.blank) := by
  induction l generalizing j with
  | nil => simp [renameLabel_blank]
  | cons a t ih =>
    cases j with
    | zero => simp
    | succ n => simpa using ih n

lemma mem_dedupAux (seen l : List String) (a : String) :
    a ∈ dedupAux seen l ↔ a ∈ l ∧ ¬ a ∈ seen := by
  induction l generalizing seen with
  | nil => simp [dedupAux]
  | cons k rest ih =>
    by_cases hk : seen.any (fun x => x == k) = true
    · have hkseen : k ∈ seen := by
        rcases List.any_eq_true.mp hk with ⟨x, hx, hxk⟩
        rcases beq_iff_eq.mp hxk with rfl
        exact hx
      rw [show dedupAux seen (k :: rest) = dedupAux seen rest from by simp [dedupAux, hk]]
      rw [ih seen]
      simp only [List.mem_cons]
      constructor
      · rintro ⟨hmem, hns⟩; exact ⟨Or.inr hmem, hns⟩
      · rintro ⟨rfl | hmem, hns⟩
        · exact absurd hkseen hns
        · exact ⟨hmem, hns⟩
    · have hk2 : (seen.any fun x => x == k) = false := Bool.eq_false_iff.mpr hk
      rw [show dedupAux seen (k :: rest) = k :: dedupAux (k :: seen) rest from by
        simp [dedupAux, hk2]]
      simp only [List.mem_cons, ih (k :: seen), List.mem_cons]
      by_cases hak : a = k
      · subst hak
        have hns : a ∉ seen := fun hmem =>
          hk (List.any_eq_true.mpr ⟨a, hmem, beq_self_eq_true a⟩)
        simp [hns]
      · simp [hak]

lemma nodup_dedupAux (seen l : List String) : (dedupAux seen l).Nodup := by
  induction l generalizing seen with
  | nil => simp [dedupAux]
  | cons k rest ih =>
    by_cases hk : seen.any (fun x => x == k) = true
    · simpa [dedupAux, hk] using ih seen
    · have hk2 : (seen.any fun x => x == k) = false := Bool.eq_false_iff.mpr hk
      rw [show dedupAux seen (k :: rest) = k :: dedupAux (k :: seen) rest from by
        simp [dedupAux, hk2]]
      rw [List.nodup_cons]
      refine ⟨fun hmem => ?_, ih (k :: seen)⟩
      exact ((mem_dedupAux (k :: seen) rest k).mp hmem).2 (by simp)

lemma filter_key_map (ks : List String) (f : String → String × ℚ)
    (hf : ∀ k, (f k).1 = k) (t : String) (hnd : ks.Nodup) :
    (ks.map f).filter (fun p => p.1 == t) = if t ∈ ks then [f t] else [] := by
  induction ks with
  | nil => simp
  | cons k rest ih =>
    rcases List.nodup_cons.mp hnd with ⟨hk, hnd2⟩
    by_cases hkt : k = t
    · subst hkt
      simp only [List.map_cons, List.filter_cons, hf k, beq_self_eq_true, if_true, if_pos (List.mem_cons_self k rest)]
      rw [ih hnd2, if_neg hk]
    · simp only [List.map_cons, List.filter_cons, hf k]
      rw [if_neg (by simp [hkt]), ih hnd2]
      by_cases ht : t ∈ rest
      · rw [if_pos ht, if_pos (List.mem_cons_of_mem k ht)]
      · rw [if_neg ht, if_neg (by simp [ht, Ne.symm hkt])]

lemma sumFor_groupbySum (rs : List CRow) (key : CRow → String) (t : String) :
    sumFor (groupbySum rs key) t =
      ((rs.filter (fun r => key r == t)).map (fun r => r.Ending_Balance)).sum := by
  have hnd : (dedupKeys (rs.map key)).Nodup := by
    simpa [dedupKeys] using nodup_dedupAux [] (rs.map key)
  unfold sumFor groupbySum
  rw [filter_key_map (dedupKeys (rs.map key))
      (fun k => (k, ((rs.filter (fun r => key r == k)).map (fun r => r.Ending_Balance)).sum))
      (fun k => rfl) t hnd]
  by_cases ht : t ∈ dedupKeys (rs.map key)
  · rw [if_pos ht]
    simp
  · rw [if_neg ht]
    have hnt : ¬ t ∈ rs.map key := fun hmem =>
      ht (by simpa [dedupKeys] using (mem_dedupAux [] (rs.map key) t).mpr ⟨hmem, by simp⟩)
    have hfil : rs.filter (fun r => key r == t) = [] := by
      apply List.filter_eq_nil_iff.mpr
      intro r hr hkr
      exact hnt (List.mem_map.mpr ⟨r, hr, beq_iff_eq.mp hkr⟩)
    simp [hfil]

lemma mem_groupbySum (rs : List CRow) (key : CRow → String) (k : String) (v : ℚ)
    (h : (k, v) ∈ groupbySum rs key) :
    v = ((rs.filter (fun r => key r == k)).map (fun r => r.Ending_Balance)).sum := by
  unfold groupbySum at h
  rcases List.mem_map.mp h with ⟨k2, _, heq⟩
  have hk : k2 = k := congrArg Prod.fst heq
  subst hk
  exact (congrArg Prod.snd heq).symm



/- ──────────────── Claim theorems ──────────────── -/

/-- Claim C1: for every classified table and every row whose Account string
starts with the digit 3, classify_accounts leaves that row with Sub_Category
equal to Stockholders Equity: the Equity override of line 116 is applied
last and wins over any earlier sub-category assignment. -/
theorem c1_equity_override (df : List CRow) (r : CRow)
    (hr : r ∈ classify_accounts df) (h3 : startsW r.Account "3" = true) :
    r.Sub_Category = "Stockholders Equity" := by
  rcases List.mem_map.mp hr with ⟨r0, _, rfl⟩
  have hacc : (classifyRow r0).Account = r0.Account := rfl
  rw [hacc] at h3
  show subCategoryOf r0.Account (categoryOf r0.Account) = "Stockholders Equity"
  have hcat : categoryOf r0.Account = "Equity" := by simp [categoryOf, h3]
  rw [hcat]
  simp [subCategoryOf]

/-- Witness for C1: the concrete equity account 3000 ends with Sub_Category
Stockholders Equity. -/
theorem c1_equity_override_witness :
    (classifyRow (mkRow "3000" 0)).Sub_Category = "Stockholders Equity" :=
  c1_equity_override [mkRow "3000" 0] (classifyRow (mkRow "3000" 0))
    (List.mem_map.mpr ⟨mkRow "3000" 0, List.mem_singleton.mpr rfl, rfl⟩) (by decide)

/-- Claim C8: classification is idempotent: reapplying classify_accounts to an
already classified table reproduces it exactly, in particular the Category and
Sub_Category values are unchanged. -/
theorem c8_classify_idempotent (df : List CRow) :
    classify_accounts (classify_accounts df) = classify_accounts df := by
  unfold classify_accounts
  rw [List.map_map]
  rfl

/-- Claim C9: in the FinBot handler, a transport exception displays the
exception text itself while an HTTP 500 response displays the interpolated
OpenAI error 500 message, so the two displayed errors differ whenever the
exception text is not that exact message, and neither case crashes the
process. -/
theorem c9_error_distinct (e body : String) (h : e ≠ "OpenAI error 500") :
    ask_ai_outcome (HttpResult.exc e) = Display.errorMsg e ∧
    ask_ai_outcome (HttpResult.response 500 body) = Display.errorMsg "OpenAI error 500" ∧
    ask_ai_outcome (HttpResult.exc e) ≠ ask_ai_outcome (HttpResult.response 500 body) ∧
    ask_ai_outcome (HttpResult.exc e) ≠ Display.crashed ∧
    ask_ai_outcome (HttpResult.response 500 body) ≠ Display.crashed := by
  have h500 : ask_ai_outcome (HttpResult.response 500 body) =
      Display.errorMsg "OpenAI error 500" := rfl
  refine ⟨rfl, h500, ?_, by simp [ask_ai_outcome], by rw [h500]; simp⟩
  rw [h500]
  simp [ask_ai_outcome, h]

/-- Witness for C9 at a concrete connection-failure message. -/
theorem c9_error_distinct_witness :
    ask_ai_outcome (HttpResult.exc "Connection refused") =
      Display.errorMsg "Connection refused" ∧
    ask_ai_outcome (HttpResult.response 500 "") = Display.errorMsg "OpenAI error 500" ∧
    ask_ai_outcome (HttpResult.exc "Connection refused") ≠
      ask_ai_outcome (HttpResult.response 500 "") ∧
    ask_ai_outcome (HttpResult.exc "Connection refused") ≠ Display.crashed ∧
    ask_ai_outcome (HttpResult.response 500 "") ≠ Display.crashed :=
  c9_error_distinct "Connection refused" "" (by decide)

/-- Claim C7: the income statement metrics satisfy the stated identities with
each term the sum of Ending_Balance over the income rows of that type, and on
per-type sums Revenue 1000, COGS 400, Operating Expense 200, Other 50 they
evaluate to EBITDA 400 and Net Income 350 exactly. -/
theorem c7_income_metrics :
    (∀ df : List CRow,
      ebitdaOf df =
        typeSum df "Revenue" - typeSum df "COGS" - typeSum df "Operating Expense" ∧
      netIncomeOf df = ebitdaOf df - typeSum df "Other") ∧
    ebitdaOf [mkRow "4000" 1000, mkRow "5000" 400, mkRow "6000" 200, mkRow "7000" 50] = 400 ∧
    netIncomeOf [mkRow "4000" 1000, mkRow "5000" 400, mkRow "6000" 200, mkRow "7000" 50] = 350 := by
  refine ⟨fun df => ⟨?_, ?_⟩, ?_, ?_⟩
  · unfold ebitdaOf revenueOf cogsOf opexOf typeSum incomeSummary
    rw [sumFor_groupbySum, sumFor_groupbySum, sumFor_groupbySum]
  · unfold netIncomeOf otherOf typeSum incomeSummary
    rw [sumFor_groupbySum]
  · simp +decide [ebitdaOf, revenueOf, cogsOf, opexOf, incomeSummary, incomeRows,
      sumFor, groupbySum, dedupKeys, dedupAux, typeOf, mkRow]
    norm_num
  · simp +decide [netIncomeOf, ebitdaOf, revenueOf, cogsOf, opexOf, otherOf,
      incomeSummary, incomeRows, sumFor, groupbySum, dedupKeys, dedupAux, typeOf, mkRow]
    norm_num

lemma extract_trial_balance_spec :
    ∀ (g : List (List Cell)) (i : Nat), i < g.length →
      rowQualifies (g.getD i []) = true →
      (∀ j, j < i → rowQualifies (g.getD j []) = false) →
      extract_trial_balance g =
        { labels := g.getD i [], rows := (g.drop (i + 1)).filter rowNonblank } := by
  intro g
  induction g with
  | nil => intro i hi; simp at hi
  | cons r rest ih =>
    intro i hi hq hfirst
    cases i with
    | zero =>
      simp only [List.getD_cons_zero] at hq ⊢
      simp [extract_trial_balance, hq]
    | succ n =>
      have h0 : rowQualifies r = false := by simpa using hfirst 0 (Nat.succ_pos n)
      simp only [List.getD_cons_succ] at hq ⊢
      rw [show extract_trial_balance (r :: rest) = extract_trial_balance rest from by
        simp [extract_trial_balance, h0]]
      rw [ih n (by simpa using hi) hq
        (fun j hj => by simpa using hfirst (j + 1) (Nat.succ_lt_succ hj))]
      simp

/-- Claim C2 counterexample: a sheet whose only row is a qualifying header row.
The header is found, yet the returned table is empty in the sense of the code
(pandas df.empty, which the caller of line 62 reads as trial balance not
found), refuting the unconditional claim that the result is non-empty. -/
theorem c2_counterexample :
    rowQualifies (([[Cell.str "Account", Cell.str "Description"]] :
        List (List Cell)).getD 0 []) = true ∧
    extract_trial_balance [[Cell.str "Account", Cell.str "Description"]] =
      { labels := [Cell.str "Account", Cell.str "Description"], rows := [] } ∧
    tableEmpty (extract_trial_balance [[Cell.str "Account", Cell.str "Description"]]) =
      true := by
  refine ⟨by decide, by decide, by decide⟩

/-- Claim C2 (amended): when row i is the first row whose cells contain both
tokens, the Header Locator returns the table whose column labels are the
values of that row and whose data rows are the rows following it with
entirely blank rows discarded; this table is non-empty precisely when at
least one non-blank row follows the header row. -/
theorem c2_amended (g : List (List Cell)) (i : Nat) (hi : i < g.length)
    (hq : rowQualifies (g.getD i []) = true)
    (hfirst : ∀ j, j < i → rowQualifies (g.getD j []) = false) :
    extract_trial_balance g =
      { labels := g.getD i [], rows := (g.drop (i + 1)).filter rowNonblank } ∧
    (tableEmpty (extract_trial_balance g) = false ↔
      (g.drop (i + 1)).filter rowNonblank ≠ []) := by
  have main := extract_trial_balance_spec g i hi hq hfirst
  refine ⟨main, ?_⟩
  have hne : g.getD i [] ≠ [] := by
    intro h0
    rw [h0] at hq
    exact absurd hq (by decide)
  rw [main]
  have hlab : (g.getD i []).isEmpty = false :=
    Bool.eq_false_iff.mpr (fun h0 => hne (List.isEmpty_iff.mp h0))
  show (((g.getD i []).isEmpty || ((g.drop (i + 1)).filter rowNonblank).isEmpty) = false) ↔ _
  rw [hlab, Bool.false_or, Bool.eq_false_iff]
  simp [List.isEmpty_iff]

/-- Witness for C2 (amended) on a concrete two-row sheet. -/
theorem c2_amended_witness :
    extract_trial_balance [[Cell.str "Account", Cell.str "Description"],
        [Cell.str "100", Cell.str "cash"]] =
      { labels := ([[Cell.str "Account", Cell.str "Description"],
          [Cell.str "100", Cell.str "cash"]] : List (List Cell)).getD 0 [],
        rows := (([[Cell.str "Account", Cell.str "Description"],
          [Cell.str "100", Cell.str "cash"]] : List (List Cell)).drop (0 + 1)).filter
            rowNonblank } ∧
    (tableEmpty (extract_trial_balance [[Cell.str "Account", Cell.str "Description"],
        [Cell.str "100", Cell.str "cash"]]) = false ↔
      (([[Cell.str "Account", Cell.str "Description"],
          [Cell.str "100", Cell.str "cash"]] : List (List Cell)).drop (0 + 1)).filter
            rowNonblank ≠ []) :=
  c2_amended [[Cell.str "Account", Cell.str "Description"], [Cell.str "100", Cell.str "cash"]]
    0 (by decide) (by decide) (fun j hj => absurd hj (by omega))

def c5rows : List CRow := classify_accounts [mkRow "2000" (-5)]

/-- Claim C5 counterexample: one liability row with signed balance minus five.
The value charted for its sub-category by display_balance_sheet is the signed
sum minus five, not the absolute value five the claim requires: lines 162-167
of src/app.py apply no absolute value. -/
theorem c5_counterexample :
    liabBreakdown c5rows = [("Current Liabilities", (-5 : ℚ))] ∧
    |subSum c5rows "Liabilities" "Current Liabilities"| = (5 : ℚ) ∧
    ¬ ((-5 : ℚ) = |subSum c5rows "Liabilities" "Current Liabilities"|) := by
  have h1 : liabBreakdown c5rows = [("Current Liabilities", (-5 : ℚ))] := by
    simp +decide [c5rows, liabBreakdown, classify_accounts, classifyRow, groupbySum,
      dedupKeys, dedupAux, mkRow, subCategoryOf, categoryOf]
  have h2 : subSum c5rows "Liabilities" "Current Liabilities" = (-5 : ℚ) := by
    simp +decide [c5rows, subSum, classify_accounts, classifyRow, mkRow,
      subCategoryOf, categoryOf]
  refine ⟨h1, ?_, ?_⟩
  · rw [h2]; norm_num
  · rw [h2]; norm_num

/-- Claim C5 (amended): every value charted for a sub-category in the
Liabilities or Equity breakdown is exactly the signed per-sub-category sum of
Ending_Balance, the same signed value the tabular view reflects; no absolute
value is applied. -/
theorem c5_amended (df : List CRow) (k : String) (v : ℚ) :
    ((k, v) ∈ liabBreakdown df → v = subSum df "Liabilities" k) ∧
    ((k, v) ∈ eqBreakdown df → v = subSum df "Equity" k) := by
  constructor
  · intro h
    rw [mem_groupbySum _ _ _ _ h]
    unfold subSum
    rw [List.filter_filter]
    exact congrArg _ (congrArg _ (List.filter_congr (fun x _ => Bool.and_comm _ _)))
  · intro h
    rw [mem_groupbySum _ _ _ _ h]
    unfold subSum
    rw [List.filter_filter]
    exact congrArg _ (congrArg _ (List.filter_congr (fun x _ => Bool.and_comm _ _)))

/-- Witness for C5 (amended) at the concrete liability row. -/
theorem c5_amended_witness :
    (-5 : ℚ) = subSum c5rows "Liabilities" "Current Liabilities" :=
  (c5_amended c5rows "Current Liabilities" (-5)).1 (by
    simp +decide [c5rows, liabBreakdown, classify_accounts, classifyRow, groupbySum,
      dedupKeys, dedupAux, mkRow, subCategoryOf, categoryOf])

lemma load_inversion (grid : List (List Cell)) (t : Table)
    (h : load_trial_balance_from_sheet grid = some t) :
    t.labels = (extract_trial_balance grid).labels.map renameLabel ∧
    (t.labels.any fun c => c == Cell.str "Account") = true ∧
    t.rows = (((extract_trial_balance grid).rows.map
        (astypeStrAt (t.labels.findIdx fun c => c == Cell.str "Account"))).filter
        (fun r => matchAcct (cellStr
          (r.getD (t.labels.findIdx fun c => c == Cell.str "Account") Cell.blank)))).map
        (fun r => coerceFrom t.labels r) := by
  simp only [load_trial_balance_from_sheet] at h
  split_ifs at h with h1 h2
  · injection h with h3
    subst h3
    exact ⟨rfl, h2, rfl⟩

lemma matchAcct_spec (s : String) (h : matchAcct s = true) :
    s.toList ≠ [] ∧
    (s.toList.all Char.isDigit = true ∨
      ∃ ds, s.toList = ds ++ ['\n'] ∧ ds ≠ [] ∧ ds.all Char.isDigit = true) := by
  simp only [matchAcct, Bool.and_eq_true, Bool.not_eq_eq_eq_not, Bool.not_false] at h
  by_cases hl : (s.toList.getLast? == some '\n') = true
  · rw [if_pos hl] at h
    rcases (s.toList).eq_nil_or_concat with hnil | ⟨l2, a, hconc⟩
    · rw [hnil] at hl
      exact absurd hl (by decide)
    · rw [List.concat_eq_append] at hconc
      have ha : a = '\n' := by
        rw [hconc, List.getLast?_concat] at hl
        simpa using hl
      subst ha
      rw [hconc, List.dropLast_concat] at h
      refine ⟨by rw [hconc]; simp, Or.inr ⟨l2, hconc, ?_, h.2⟩⟩
      intro h0
      rw [h0] at h
      exact absurd h.1 (by decide)
  · rw [if_neg hl] at h
    refine ⟨?_, Or.inl h.2⟩
    intro h0
    rw [h0] at h
    exact absurd h.1 (by decide)

/-- Claim C3 counterexample: the account string consisting of the digits 123
followed by one newline passes the str.match filter of line 89, because the
Python dollar anchor matches just before a trailing newline, so the returned
table contains a row whose Account is not purely decimal digits. -/
theorem c3_counterexample :
    load_trial_balance_from_sheet
        [[Cell.str "Account", Cell.str "Description"], [Cell.str "123\n", Cell.str "x"]] =
      some { labels := [Cell.str "Account", Cell.str "Description"],
             rows := [[Cell.str "123\n", Cell.str "x"]] } ∧
    ∃ r ∈ ({ labels := [Cell.str "Account", Cell.str "Description"],
             rows := [[Cell.str "123\n", Cell.str "x"]]} : Table).rows,
      ∃ s, r.getD 0 Cell.blank = Cell.str s ∧ ¬ s.toList.all Char.isDigit = true := by
  refine ⟨by decide, [Cell.str "123\n", Cell.str "x"], by decide, "123\n", by decide, by decide⟩

/-- Claim C3 (amended): every row of a table returned by
load_trial_balance_from_sheet has, in the Account column, a string value that
is a non-empty run of decimal digits, or such a run followed by exactly one
trailing newline (the one further form the Python dollar anchor accepts); in
particular the non-numeric account ABC123 never appears, being filtered out
rather than raising an error. -/
theorem c3_amended (grid : List (List Cell)) (t : Table)
    (h : load_trial_balance_from_sheet grid = some t) :
    ∀ r ∈ t.rows, ∃ s : String,
      r.getD (t.labels.findIdx fun c => c == Cell.str "Account") Cell.blank = Cell.str s ∧
      s.toList ≠ [] ∧
      (s.toList.all Char.isDigit = true ∨
        ∃ ds, s.toList = ds ++ ['\n'] ∧ ds ≠ [] ∧ ds.all Char.isDigit = true) ∧
      s ≠ "ABC123" := by
  obtain ⟨hlab, hany, hrows⟩ := load_inversion grid t h
  intro r hr
  rw [hrows] at hr
  rcases List.mem_map.mp hr with ⟨r2, hr2, rfl⟩
  rcases List.mem_filter.mp hr2 with ⟨hr1, hmatch⟩
  rcases List.mem_map.mp hr1 with ⟨r0, hr0, rfl⟩
  by_cases hlen : (t.labels.findIdx fun c => c == Cell.str "Account") < r0.length
  · have hcell : (astypeStrAt (t.labels.findIdx fun c => c == Cell.str "Account") r0).getD
        (t.labels.findIdx fun c => c == Cell.str "Account") Cell.blank =
        Cell.str (cellStr (r0.getD (t.labels.findIdx fun c => c == Cell.str "Account")
          Cell.blank)) := by
      unfold astypeStrAt
      exact getD_set_self r0 _ _ _ hlen
    have hAcc : t.labels.getD (t.labels.findIdx fun c => c == Cell.str "Account")
        Cell.blank = Cell.str "Account" :=
      beq_iff_eq.mp (findIdx_getD (fun c => c == Cell.str "Account") t.labels Cell.blank hany)
    have hlen2 : (t.labels.findIdx fun c => c == Cell.str "Account") <
        (astypeStrAt (t.labels.findIdx fun c => c == Cell.str "Account") r0).length := by
      unfold astypeStrAt
      rw [List.length_set]
      exact hlen
    have hco : (coerceFrom t.labels
        (astypeStrAt (t.labels.findIdx fun c => c == Cell.str "Account") r0)).getD
        (t.labels.findIdx fun c => c == Cell.str "Account") Cell.blank =
        (astypeStrAt (t.labels.findIdx fun c => c == Cell.str "Account") r0).getD
          (t.labels.findIdx fun c => c == Cell.str "Account") Cell.blank := by
      rw [coerceFrom_getD _ _ _ hlen2, hAcc]
      rw [show isNumLabel (Cell.str "Account") = false from by decide]
      simp
    rw [hcell] at hmatch
    rw [show cellStr (Cell.str (cellStr (r0.getD
        (t.labels.findIdx fun c => c == Cell.str "Account") Cell.blank))) =
        cellStr (r0.getD (t.labels.findIdx fun c => c == Cell.str "Account") Cell.blank)
      from rfl] at hmatch
    obtain ⟨hne, hdig⟩ := matchAcct_spec _ hmatch
    refine ⟨cellStr (r0.getD (t.labels.findIdx fun c => c == Cell.str "Account") Cell.blank),
        ?_, hne, hdig, ?_⟩
    · rw [hco, hcell]
    · intro heq
      rw [heq] at hmatch
      exact absurd hmatch (by decide)
  · exfalso
    have h1 : (astypeStrAt (t.labels.findIdx fun c => c == Cell.str "Account") r0).getD
        (t.labels.findIdx fun c => c == Cell.str "Account") Cell.blank = Cell.blank := by
      unfold astypeStrAt
      rw [set_oob r0 _ _ (by omega), List.getD_eq_default _ _ (by omega)]
    rw [h1] at hmatch
    exact absurd hmatch (by decide)

/-- Witness for C3 (amended) on a sheet with one well-formed data row. -/
theorem c3_amended_witness :
    ∃ s : String,
      ([Cell.str "100", Cell.str "d"] : List Cell).getD
        (({ labels := [Cell.str "Account", Cell.str "Description"],
            rows := [[Cell.str "100", Cell.str "d"]] } : Table).labels.findIdx
          fun c => c == Cell.str "Account") Cell.blank = Cell.str s ∧
      s.toList ≠ [] ∧
      (s.toList.all Char.isDigit = true ∨
        ∃ ds, s.toList = ds ++ ['\n'] ∧ ds ≠ [] ∧ ds.all Char.isDigit = true) ∧
      s ≠ "ABC123" :=
  c3_amended [[Cell.str "Account", Cell.str "Description"], [Cell.str "100", Cell.str "d"]]
    { labels := [Cell.str "Account", Cell.str "Description"],
      rows := [[Cell.str "100", Cell.str "d"]] }
    (by decide) [Cell.str "100", Cell.str "d"] (by decide)

/-- Claim C6: when the extracted table carries a column labelled exactly
Ending Balance or ending_balance, the normalizer renames it to
Ending_Balance, every value of that column in the returned table is numeric,
each such value is the coercion of the original cell of some extracted row,
and any original cell the coercion cannot parse (including a missing one)
becomes the number 0. -/
theorem c6_normalizer (grid : List (List Cell)) (t : Table) (j : Nat)
    (h : load_trial_balance_from_sheet grid = some t)
    (hj : (extract_trial_balance grid).labels.getD j Cell.blank = Cell.str "Ending Balance" ∨
      (extract_trial_balance grid).labels.getD j Cell.blank = Cell.str "ending_balance") :
    t.labels.getD j Cell.blank = Cell.str "Ending_Balance" ∧
    (∀ r ∈ t.rows, j < r.length → ∃ q : ℚ, r.getD j Cell.blank = Cell.num q) ∧
    (∀ r ∈ t.rows, j < r.length → ∃ r0 ∈ (extract_trial_balance grid).rows,
      r.getD j Cell.blank = Cell.num ((toNumeric (r0.getD j Cell.blank)).getD 0)) ∧
    (∀ c : Cell, toNumeric c = none → coerceCell c = Cell.num 0) := by
  obtain ⟨hlab, hany, hrows⟩ := load_inversion grid t h
  set aIdx := t.labels.findIdx (fun c => c == Cell.str "Account") with haIdx
  have hlabj : t.labels.getD j Cell.blank = Cell.str "Ending_Balance" := by
    rw [hlab, getD_map_renameLabel]
    rcases hj with hj2 | hj2
    · rw [hj2]; decide
    · rw [hj2]; decide
  have hAcc : t.labels.getD aIdx Cell.blank = Cell.str "Account" :=
    beq_iff_eq.mp (findIdx_getD (fun c => c == Cell.str "Account") t.labels Cell.blank hany)
  have hij : j ≠ aIdx := by
    intro he
    rw [he, hAcc] at hlabj
    exact absurd hlabj (by decide)
  have hrowfact : ∀ r ∈ t.rows, j < r.length →
      ∃ r0 ∈ (extract_trial_balance grid).rows,
        r.getD j Cell.blank = Cell.num ((toNumeric (r0.getD j Cell.blank)).getD 0) := by
    intro r hr hjr
    rw [hrows] at hr
    rcases List.mem_map.mp hr with ⟨r2, hr2, rfl⟩
    rcases List.mem_filter.mp hr2 with ⟨hr1, _⟩
    rcases List.mem_map.mp hr1 with ⟨r0, hr0, rfl⟩
    refine ⟨r0, hr0, ?_⟩
    have hl2 : j < (astypeStrAt aIdx r0).length := by
      have hlen := length_coerceFrom t.labels (astypeStrAt aIdx r0)
      omega
    have hga : (astypeStrAt aIdx r0).getD j Cell.blank = r0.getD j Cell.blank := by
      unfold astypeStrAt
      exact getD_set_other r0 aIdx j _ _ (Ne.symm hij)
    rw [coerceFrom_getD _ _ _ hl2, hlabj,
      show isNumLabel (Cell.str "Ending_Balance") = true from by decide, if_pos rfl, hga]
    rfl
  refine ⟨hlabj, ?_, hrowfact, ?_⟩
  · intro r hr hjr
    rcases hrowfact r hr hjr with ⟨r0, _, heq⟩
    exact ⟨_, heq⟩
  · intro c hc
    simp [coerceCell, hc]

/- A concrete sheet whose Ending Balance column holds the unparsable string
   abc, and the table the loader returns for it. -/
def c6grid : List (List Cell) :=
  [[Cell.str "Account", Cell.str "Description", Cell.str "Ending Balance"],
    [Cell.str "100", Cell.str "d", Cell.str "abc"]]

def c6table : Table :=
  { labels := [Cell.str "Account", Cell.str "Description", Cell.str "Ending_Balance"],
    rows := [[Cell.str "100", Cell.str "d", Cell.num 0]] }

/-- Witness for C6: on the concrete sheet the unparsable cell comes out as
the number 0 under the renamed Ending_Balance column. -/
theorem c6_normalizer_witness :
    c6table.labels.getD 2 Cell.blank = Cell.str "Ending_Balance" ∧
    (∀ r ∈ c6table.rows, 2 < r.length → ∃ q : ℚ, r.getD 2 Cell.blank = Cell.num q) ∧
    (∀ r ∈ c6table.rows, 2 < r.length →
      ∃ r0 ∈ (extract_trial_balance c6grid).rows,
        r.getD 2 Cell.blank = Cell.num ((toNumeric (r0.getD 2 Cell.blank)).getD 0)) ∧
    (∀ c : Cell, toNumeric c = none → coerceCell c = Cell.num 0) :=
  c6_normalizer c6grid c6table 2 (by decide) (Or.inl (by decide))

def c4wb : List (String × List (List Cell)) :=
  [("Sheet1", [[Cell.str "Company: Acme Corp"]]), ("Sheet2", [[Cell.str "hello"]])]

/-- Claim C4 counterexample: the first sheet holds the single cell
Company: Acme Corp and nothing after it in the row, so extract_company_name
finds no successor cell and returns nothing; the map then carries both sheet
identifiers only and has no Acme Corp key, refuting the claim. -/
theorem c4_counterexample :
    company_sheet_map c4wb = [("Sheet1", "Sheet1"), ("Sheet2", "Sheet2")] ∧
    List.lookup "Acme Corp" (company_sheet_map c4wb) = none := by
  refine ⟨by decide, by decide⟩

/-- Claim C4 (amended): for a two-sheet workbook whose first sheet yields the
company name Acme Corp from its first 20 rows (a cell containing the company
token followed by a further cell whose stripped content is Acme Corp) and
whose second sheet yields no company name, the map sends Acme Corp to the
first sheet identifier and the second sheet identifier to itself, provided
the second identifier is not itself Acme Corp. -/
theorem c4_amended (s1 s2 : String) (g1 g2 : List (List Cell))
    (h1 : extract_company_name (g1.take 20) = some "Acme Corp")
    (h2 : extract_company_name (g2.take 20) = none)
    (hne : s2 ≠ "Acme Corp") :
    company_sheet_map [(s1, g1), (s2, g2)] = [("Acme Corp", s1), (s2, s2)] := by
  have e1 : sheetEntry [] s1 g1 = [("Acme Corp", s1)] := by
    unfold sheetEntry
    rw [h1]
    rfl
  have e2 : sheetEntry [("Acme Corp", s1)] s2 g2 = [("Acme Corp", s1), (s2, s2)] := by
    unfold sheetEntry
    rw [h2]
    unfold dictInsert
    have hbeq : (("Acme Corp" : String) == s2) = false :=
      beq_eq_false_iff_ne.mpr (fun he => hne he.symm)
    rw [show ([("Acme Corp", s1)].any fun p => p.1 == s2) = false from by simp [hbeq]]
    rfl
  show sheetEntry (sheetEntry [] s1 g1) s2 g2 = _
  rw [e1, e2]

def c4wgrid1 : List (List Cell) := [[Cell.str "Company:", Cell.str "Acme Corp"]]

def c4wgrid2 : List (List Cell) := [[Cell.str "hello"]]

/-- Witness for C4 (amended) on a workbook whose company cell does have a
successor cell. -/
theorem c4_amended_witness :
    company_sheet_map [("Sheet1", c4wgrid1), ("Sheet2", c4wgrid2)] =
      [("Acme Corp", "Sheet1"), ("Sheet2", "Sheet2")] :=
  c4_amended "Sheet1" "Sheet2" c4wgrid1 c4wgrid2 (by decide) (by decide) (by decide)

lemma rowName_some_spec (vs : List String) (n : String) (h : rowName vs = some n) :
    ∃ i, i + 1 < vs.length ∧ containsTok (vs.getD i "") "company" = true ∧
      n = pyStrip (vs.getD (i + 1) "") := by
  induction vs with
  | nil => simp [rowName] at h
  | cons v rest ih =>
    cases rest with
    | nil => simp [rowName] at h
    | cons w rest2 =>
      by_cases hc : containsTok v "company" = true
      · rw [show rowName (v :: w :: rest2) = some (pyStrip w) from by simp [rowName, hc]] at h
        injection h with h2
        exact ⟨0, by simp, by simpa using hc, by simp [h2.symm]⟩
      · have hc2 : containsTok v "company" = false := by simpa using hc
        rw [show rowName (v :: w :: rest2) = rowName (w :: rest2) from by
          simp [rowName, hc2]] at h
        rcases ih h with ⟨i, hi, hcont, hn⟩
        exact ⟨i + 1, by simpa using Nat.succ_lt_succ hi, by simpa using hcont,
          by simpa using hn⟩

lemma rowName_none_spec (vs : List String)
    (h : ∀ i, i + 1 < vs.length → containsTok (vs.getD i "") "company" = false) :
    rowName vs = none := by
  induction vs with
  | nil => simp [rowName]
  | cons v rest ih =>
    cases rest with
    | nil => simp [rowName]
    | cons w rest2 =>
      have h0 : containsTok v "company" = false := by simpa using h 0 (by simp)
      rw [show rowName (v :: w :: rest2) = rowName (w :: rest2) from by simp [rowName, h0]]
      exact ih (fun i hi => by simpa using h (i + 1) (by simpa using Nat.succ_lt_succ hi))

lemma extract_company_some_spec (g : List (List Cell)) (n : String)
    (h : extract_company_name g = some n) :
    ∃ row ∈ g, ∃ i, i + 1 < (stripCellVals row).length ∧
      containsTok ((stripCellVals row).getD i "") "company" = true ∧
      n = pyStrip ((stripCellVals row).getD (i + 1) "") := by
  induction g with
  | nil => simp [extract_company_name] at h
  | cons row rest ih =>
    cases hrn : rowName (stripCellVals row) with
    | some m =>
      rw [show extract_company_name (row :: rest) = some m from by
        simp [extract_company_name, hrn]] at h
      injection h with h2
      subst h2
      rcases rowName_some_spec _ _ hrn with ⟨i, hi, hc, hn⟩
      exact ⟨row, List.mem_cons_self row rest, i, hi, hc, hn⟩
    | none =>
      rw [show extract_company_name (row :: rest) = extract_company_name rest from by
        simp [extract_company_name, hrn]] at h
      rcases ih h with ⟨row2, hrow2, i, hi, hc, hn⟩
      exact ⟨row2, List.mem_cons_of_mem row hrow2, i, hi, hc, hn⟩

lemma extract_company_none_spec (g : List (List Cell))
    (h : ∀ row ∈ g, ∀ i, i + 1 < (stripCellVals row).length →
      containsTok ((stripCellVals row).getD i "") "company" = false) :
    extract_company_name g = none := by
  induction g with
  | nil => simp [extract_company_name]
  | cons row rest ih =>
    have hrn : rowName (stripCellVals row) = none :=
      rowName_none_spec _ (h row (List.mem_cons_self row rest))
    rw [show extract_company_name (row :: rest) = extract_company_name rest from by
      simp [extract_company_name, hrn]]
    exact ih (fun row2 hrow2 => h row2 (List.mem_cons_of_mem row hrow2))

/-- Claim C10: company-name extraction yields a name only when some scanned
row, after dropping blank and nan cells, has a cell containing the company
token followed by at least one further cell, and the name is the stripped
content of that next cell; when no company cell has a successor the
extraction yields nothing, and the sheet scan then inserts the sheet
identifier as both key and value. -/
theorem c10_company_extraction (g : List (List Cell)) :
    (∀ n, extract_company_name g = some n →
      ∃ row ∈ g, ∃ i, i + 1 < (stripCellVals row).length ∧
        containsTok ((stripCellVals row).getD i "") "company" = true ∧
        n = pyStrip ((stripCellVals row).getD (i + 1) "")) ∧
    ((∀ row ∈ g, ∀ i, i + 1 < (stripCellVals row).length →
        containsTok ((stripCellVals row).getD i "") "company" = false) →
      extract_company_name g = none) ∧
    (∀ (m : List (String × String)) (s : String),
      extract_company_name (g.take 20) = none → sheetEntry m s g = dictInsert m s s) := by
  refine ⟨fun n h => extract_company_some_spec g n h,
    fun h => extract_company_none_spec g h, fun m s h => ?_⟩
  unfold sheetEntry
  rw [h]

def c10grid : List (List Cell) :=
  [[Cell.str "note", Cell.str "The Company", Cell.str " Acme  "]]

/-- Witness for C10: a concrete sheet where the company cell has a successor,
and a concrete sheet without one where the fallback inserts the sheet
identifier. -/
theorem c10_company_extraction_witness :
    (∃ row ∈ c10grid, ∃ i, i + 1 < (stripCellVals row).length ∧
      containsTok ((stripCellVals row).getD i "") "company" = true ∧
      "Acme" = pyStrip ((stripCellVals row).getD (i + 1) "")) ∧
    sheetEntry [] "Sheet9" [[Cell.str "x"]] = dictInsert [] "Sheet9" "Sheet9" :=
  ⟨(c10_company_extraction c10grid).1 "Acme" (by decide),
    (c10_company_extraction [[Cell.str "x"]]).2.2 [] "Sheet9" (by decide)⟩
